import Mathlib

/-!
Shallow embedding of the transaction-layer STUN client (`client.go` of gortc/stun)
and of the parts of the transaction agent and message codec that the client
consumes.  Go errors are modelled as `Option GoErr` (`none` = nil error); calls
into the agent and the datagram endpoint are recorded as an explicit effect
trace, and the responses those collaborators give are passed in as parameters,
mirroring the fact that the client is programmed against the `ClientAgent` and
`PacketConn` interfaces.
-/

namespace Stun

/-- Go `error` values that appear in the client and agent layer.  `stopFailure`
embeds `StopErr{Err, Cause}` and `closeFailure` embeds
`CloseErr{AgentErr, ConnectionErr}`; since the fields of those structs are
themselves Go `error`s that may be nil, `nilErr` stands for a nil error
occurring inside a composite error.  `eof`, `closedPipe`, `unexpectedEOF` stand
for the external sentinel errors used by the endpoint (`io.EOF`,
`io.ErrClosedPipe`, `io.ErrUnexpectedEOF`). -/
inductive GoErr where
  | nilErr
  | agentClosed
  | clientClosed
  | clientNotInitialized
  | noConnection
  | connAlready
  | netUnsupported
  | transactionExists
  | transactionNotExists
  | transactionStopped
  | transactionTimeOut
  | eof
  | closedPipe
  | unexpectedEOF
  | stopFailure (e : GoErr) (cause : GoErr)
  | closeFailure (agentErr : GoErr) (connErr : GoErr)
  deriving Repr, DecidableEq

/-- View a possibly-nil Go error (`Option GoErr`) as a field of a composite
error. -/
def GoErr.ofOption : Option GoErr → GoErr
  | none => .nilErr
  | some e => e

/-- `net.Addr`: abstract addresses, `none` being a nil address. -/
abbrev Addr := Option Nat

/-- The part of `stun.Message` the client layer reads: the 96-bit transaction
id (12 bytes) and the encoded raw bytes. -/
structure Message where
  transactionID : List Nat
  raw : List Nat
  deriving Repr, DecidableEq

/-- Calls the client makes into its two collaborators (the `ClientAgent` and
the `PacketConn`), in program order. -/
inductive Effect where
  | agentStart (id : List Nat) (deadline : Nat)
  | agentStop (id : List Nat)
  | agentProcess (id : List Nat)
  | agentCollect (now : Nat)
  | agentClose
  | connWrite (b : List Nat) (addr : Addr)
  | connClose
  | signalClose
  | joinTasks
  | tickerStop
  deriving Repr, DecidableEq

/-- `defaultTimeoutRate = time.Millisecond * 100`, in milliseconds. -/
def defaultTimeoutRate : Nat := 100

/-- The `Client` struct: the connection and agent fields are `none` when the
corresponding Go pointer/interface is nil and carry an identifying tag
otherwise; `hasCloseChan` models whether the `close` channel is non-nil. -/
structure Client where
  conn : Option Nat
  agent : Option Nat
  hasCloseChan : Bool
  serveraddr : Addr
  gcRate : Nat
  closed : Bool
  deriving Repr, DecidableEq

/-- `Client.checkInit`: nil connection, agent or close channel means the
client is not initialized (the nil-receiver case of the Go code corresponds to
no `Client` value at all and is not representable here). -/
def Client.checkInit (c : Client) : Option GoErr :=
  if c.conn = none ∨ c.agent = none ∨ c.hasCloseChan = false then
    some .clientNotInitialized
  else none

/-- Responses the collaborators give to the calls `StartTo` can make:
`startResult` is what `a.Start` returns, `writeResult` what `c.WriteTo`
returns, and `stopResult` what `a.Stop` returns if called. -/
structure StartToEnv where
  startResult : Option GoErr
  writeResult : Option GoErr
  stopResult : Option GoErr
  deriving Repr, DecidableEq

/-- `Client.StartTo`: check initialization and the closed flag; if a handler is
set, register the transaction with the agent first and propagate a
registration error; then write the raw bytes to `raddr`; on a write error with
a handler set, stop the transaction, returning `StopErr{Err: stopErr, Cause:
writeErr}` if the stop itself fails and the original write error otherwise.
Returns the Go error together with the trace of collaborator calls. -/
def Client.startTo (c : Client) (m : Message) (raddr : Addr) (d : Nat)
    (hasHandler : Bool) (env : StartToEnv) : Option GoErr × List Effect :=
  match c.checkInit with
  | some e => (some e, [])
  | none =>
    if c.closed then (some .clientClosed, [])
    else if hasHandler then
      match env.startResult with
      | some e => (some e, [.agentStart m.transactionID d])
      | none =>
        match env.writeResult with
        | none => (none, [.agentStart m.transactionID d, .connWrite m.raw raddr])
        | some werr =>
          match env.stopResult with
          | none =>
            (some werr,
             [.agentStart m.transactionID d, .connWrite m.raw raddr,
              .agentStop m.transactionID])
          | some serr =>
            (some (.stopFailure serr werr),
             [.agentStart m.transactionID d, .connWrite m.raw raddr,
              .agentStop m.transactionID])
    else (env.writeResult, [.connWrite m.raw raddr])

/-- `Client.Start`: `StartTo` at the configured server address. -/
def Client.start (c : Client) (m : Message) (d : Nat) (hasHandler : Bool)
    (env : StartToEnv) : Option GoErr × List Effect :=
  c.startTo m c.serveraddr d hasHandler env

/-- `Client.Indicate`: `Start` with zero deadline and nil handler. -/
def Client.indicate (c : Client) (m : Message) (env : StartToEnv) :
    Option GoErr × List Effect :=
  c.start m 0 false env

/-- Outcome of `DoTo` up to the blocking wait: either it failed before the
wait, or it is waiting for the handler-delivered event. -/
inductive DoOutcome where
  | failed (e : GoErr)
  | waiting
  deriving Repr, DecidableEq

/-- `Client.DoTo` up to the blocking wait on the pooled callback handler:
check initialization, install a (non-nil) handler and call `StartTo`; a
`StartTo` error is returned to the caller, otherwise the call blocks waiting
for the event. -/
def Client.doTo (c : Client) (m : Message) (raddr : Addr) (d : Nat)
    (env : StartToEnv) : DoOutcome × List Effect :=
  match c.checkInit with
  | some e => (.failed e, [])
  | none =>
    match c.startTo m raddr d true env with
    | (some e, effs) => (.failed e, effs)
    | (none, effs) => (.waiting, effs)

/-- `Client.Close`: after the initialization check, a second call finds the
closed flag set and returns `ErrClientClosed`; the first call sets the flag,
closes the agent then the connection, signals the close channel, joins the
background tasks, and returns nil when both sub-closes succeeded and
`CloseErr` carrying both sub-errors otherwise.  `agentCloseResult` and
`connCloseResult` are what `a.Close()` and `c.Close()` return. -/
def Client.close (c : Client) (agentCloseResult connCloseResult : Option GoErr) :
    Client × Option GoErr × List Effect :=
  match c.checkInit with
  | some e => (c, some e, [])
  | none =>
    if c.closed then (c, some .clientClosed, [])
    else
      ({ c with closed := true },
       if agentCloseResult = none ∧ connCloseResult = none then none
       else some (.closeFailure (.ofOption agentCloseResult) (.ofOption connCloseResult)),
       [.agentClose, .connClose, .signalClose, .joinTasks])

/-- `closedOrPanic`: nil and `ErrAgentClosed` are swallowed, anything else
panics; the result is the panic payload (`none` = no panic). -/
def closedOrPanic (e : Option GoErr) : Option GoErr :=
  if e = none ∨ e = some .agentClosed then none else e

/-- One wake-up of the collector loop: either the close channel fired or the
ticker delivered a tick at time `now`. -/
inductive TickEvent where
  | closeSignal
  | tick (now : Nat)
  deriving Repr, DecidableEq

/-- What one iteration of `collectUntilClosed` does. -/
inductive CollectStep where
  | exited
  | panicked (e : GoErr)
  | continued
  deriving Repr, DecidableEq

/-- One iteration of `Client.collectUntilClosed`: on the close signal, stop
the ticker and return; on a tick, call `c.Collect(gcTime)` (which delegates to
`Agent.Collect`) and pass the result to `closedOrPanic`.  `collectResult` is
what the agent's `Collect` returns at a given time. -/
def collectUntilClosedStep (collectResult : Nat → Option GoErr) :
    TickEvent → CollectStep × List Effect
  | .closeSignal => (.exited, [.tickerStop])
  | .tick now =>
    match closedOrPanic (collectResult now) with
    | some e => (.panicked e, [.agentCollect now])
    | none => (.continued, [.agentCollect now])

/-! ## Message validation

`IsMessage` and `Message.Decode` live in `message.go`, which is not among the
provided sources; they are modelled from the spec. -/

/-- The magic cookie `0x2112A442` as bytes 4..8 of the header. -/
def magicCookieBytes : List Nat := [0x21, 0x12, 0xA4, 0x42]

/-- Modelled from the spec: `message.go` is not under `src/`.
`is_message(bytes)` — length ≥ 20, top two bits of `bytes[0]` are zero,
`bytes[4..8]` equal the magic cookie. -/
def IsMessage (b : List Nat) : Bool :=
  20 ≤ b.length && b.headD 0 < 64 && ((b.drop 4).take 4 == magicCookieBytes)

/-- Modelled from the spec: `message.go` is not under `src/`.  Walk the
attribute section checking 4-byte alignment: each attribute is a 2-byte type,
2-byte big-endian length, then the value padded with zeros to the next 4-byte
boundary; the fuel argument bounds the recursion by the byte count. -/
def attributesWellFormed : Nat → List Nat → Bool
  | _, [] => true
  | 0, _ => false
  | fuel + 1, bs =>
    match bs with
    | _ :: _ :: l1 :: l2 :: rest =>
      let len := l1 * 256 + l2
      let padded := 4 * ((len + 3) / 4)
      padded ≤ rest.length && attributesWellFormed fuel (rest.drop padded)
    | _ => false

/-- Modelled from the spec: `message.go` is not under `src/`.
`decode(bytes)` — parse the header and validate the magic cookie, that the
first two bits of byte 0 are zero, length consistency
(`header.length + 20 = total`) and 4-byte alignment of each attribute; on
success the message records the transaction id (bytes 8..20) and the raw
bytes. -/
def decodeMessage (b : List Nat) : Option Message :=
  let len := b.getD 2 0 * 256 + b.getD 3 0
  if IsMessage b && (len + 20 == b.length) && attributesWellFormed b.length (b.drop 20)
  then some ⟨(b.drop 8).take 12, b⟩
  else none

/-! ## The read loop -/

/-- One result of `c.c.ReadFrom` on the endpoint: a read error or a datagram. -/
inductive ReadEvent where
  | readErr (e : GoErr)
  | packet (bytes : List Nat) (addr : Addr)
  deriving Repr, DecidableEq

/-- The `(n, addr, err)` triple `Client.ReadFrom` returns. -/
structure ReadReturn where
  n : Nat
  addr : Addr
  err : Option GoErr
  deriving Repr, DecidableEq

/-- `Client.ReadFrom` over a queue of endpoint read results: loop reading
datagrams; a read error is returned as is; a datagram that is not a STUN
message, or fails to decode, is returned to the caller with a nil error and
without touching the agent; a decoded message is handed to `a.Process` (whose
result `processResult` gives) — a process error is returned, otherwise the
loop reads the next datagram.  Returns the call's result (`none` when the
queue runs dry and the read blocks), the trace of agent calls, and the
unconsumed queue. -/
def clientReadFrom (processResult : Message → Option GoErr) :
    List ReadEvent → Option ReadReturn × List Effect × List ReadEvent
  | [] => (none, [], [])
  | .readErr e :: rest => (some ⟨0, none, some e⟩, [], rest)
  | .packet bytes addr :: rest =>
    if IsMessage bytes then
      match decodeMessage bytes with
      | none => (some ⟨bytes.length, addr, none⟩, [], rest)
      | some m =>
        match processResult m with
        | some e => (some ⟨bytes.length, addr, some e⟩, [.agentProcess m.transactionID], rest)
        | none =>
          match clientReadFrom processResult rest with
          | (r, effs, rem) => (r, .agentProcess m.transactionID :: effs, rem)
    else (some ⟨bytes.length, addr, none⟩, [], rest)

/-- What one iteration of `readUntilClosed` does. -/
inductive ReadLoopStep where
  | exited
  | blocked
  | continued
  deriving Repr, DecidableEq

/-- One iteration of `Client.readUntilClosed`: if the close channel has fired,
return; otherwise call `c.ReadFrom` and return exactly when it yields
`ErrAgentClosed` (`blocked` stands for a `ReadFrom` that never returned
because the queue of endpoint reads ran dry). -/
def readUntilClosedIteration (closeFired : Bool)
    (processResult : Message → Option GoErr) (events : List ReadEvent) :
    ReadLoopStep × List Effect × List ReadEvent :=
  if closeFired then (.exited, [], events)
  else
    match clientReadFrom processResult events with
    | (none, effs, rem) => (.blocked, effs, rem)
    | (some r, effs, rem) =>
      (if r.err = some .agentClosed then .exited else .continued, effs, rem)

/-! ## The agent

`agent.go` is not among the provided sources (only its tests and the
`ClientAgent` interface are); its registry is modelled from the spec. -/

/-- One pending registration: transaction id and absolute deadline (the
handler is identified by the id it was registered under). -/
structure AgentTransaction where
  id : List Nat
  deadline : Nat
  deriving Repr, DecidableEq

/-- An `AgentEvent` delivered to a registration's handler, tagged with the
transaction id whose handler fires; `err = none` means a message was
delivered. -/
structure AgentEvent where
  id : List Nat
  err : Option GoErr
  deriving Repr, DecidableEq

/-- Modelled from the spec: `agent.go` is not under `src/`.  The agent state:
a registry of pending transactions and a closed flag. -/
structure AgentState where
  transactions : List AgentTransaction
  closed : Bool
  deriving Repr, DecidableEq

/-- Modelled from the spec: `agent.go` is not under `src/`.
`collect(now)` — for every registration whose deadline ≤ `now`, remove it and
fire its handler with `TRANSACTION_TIMEOUT`; registrations with a later
deadline are untouched; on a closed agent the call reports `AGENT_CLOSED`. -/
def AgentState.collect (a : AgentState) (now : Nat) :
    AgentState × Option GoErr × List AgentEvent :=
  if a.closed then (a, some .agentClosed, [])
  else
    ({ a with transactions := a.transactions.filter (fun t => ¬ t.deadline ≤ now) },
     none,
     (a.transactions.filter (fun t => t.deadline ≤ now)).map
       (fun t => ⟨t.id, some .transactionTimeOut⟩))

/-- Modelled from the spec: `agent.go` is not under `src/`.
`process(message)` — returns `AGENT_CLOSED` only if called post-close;
otherwise look the message's transaction id up, and if registered remove the
registration and fire its handler with the message (no error); an unknown id
goes to the default handler and is not an error. -/
def AgentState.process (a : AgentState) (m : Message) :
    AgentState × Option GoErr × List AgentEvent :=
  if a.closed then (a, some .agentClosed, [])
  else
    match a.transactions.find? (fun t => t.id == m.transactionID) with
    | some t =>
      ({ a with transactions := a.transactions.filter (fun u => ¬ u.id == t.id) },
       none, [⟨t.id, none⟩])
    | none => (a, none, [])

/-! ## Client construction -/

/-- A configuration option: a closure receiving the client under construction
and returning an error that `NewClient` discards. -/
abbrev ClientOption := Client → Client × Option GoErr

/-- `WithTimeoutRate`: overwrite the collector interval; never fails. -/
def withTimeoutRate (d : Nat) : ClientOption :=
  fun c => ({ c with gcRate := d }, none)

/-- `WithAgent`: substitute the agent; never fails. -/
def withAgent (a : Nat) : ClientOption :=
  fun c => ({ c with agent := some a }, none)

/-- `WithPacketConn`: bind the endpoint; fails with `ErrConnection` when one
is already present, leaving the client unchanged. -/
def withPacketConn (conn : Nat) : ClientOption :=
  fun c =>
    if c.conn = none then ({ c with conn := some conn }, none)
    else (c, some .connAlready)

/-- `WithSTUNServer`: set the default destination address; never fails. -/
def withSTUNServer (addr : Addr) : ClientOption :=
  fun c => ({ c with serveraddr := addr }, none)

/-- The client `NewClient` starts from: fresh close channel, default collector
interval, no connection, no agent. -/
def newClientInit : Client :=
  { conn := none, agent := none, hasCloseChan := true,
    serveraddr := none, gcRate := defaultTimeoutRate, closed := false }

/-- Tag identifying the agent `NewClient` installs when no option supplied
one. -/
def defaultAgent : Nat := 0

/-- The option-application loop of `NewClient`: each option closure runs on
the client under construction and the error it returns is discarded. -/
def applyOptions (options : List ClientOption) : Client :=
  options.foldl (fun c opt => (opt c).1) newClientInit

/-- `NewClient`: apply every option in order, discarding the error each
returns; fail with `ErrNoConnection` when no option bound a connection;
install the default agent when none was supplied. -/
def newClient (options : List ClientOption) : Option Client × Option GoErr :=
  if (applyOptions options).conn = none then (none, some .noConnection)
  else if (applyOptions options).agent = none then
    (some { applyOptions options with agent := some defaultAgent }, none)
  else (some (applyOptions options), none)

/-! ## Concrete values used by the witnesses -/

/-- An initialized, open client used to instantiate witnesses. -/
def witClient : Client :=
  { conn := some 1, agent := some 1, hasCloseChan := true,
    serveraddr := some 7, gcRate := defaultTimeoutRate, closed := false }

/-- The same client with the closed flag already set. -/
def witClosedClient : Client := { witClient with closed := true }

/-- A concrete message used to instantiate witnesses. -/
def witMessage : Message :=
  { transactionID := [1, 2, 3, 4, 5, 6, 7, 8, 9, 10, 11, 12],
    raw := [0, 1, 0, 0, 0x21, 0x12, 0xA4, 0x42, 1, 2, 3, 4, 5, 6, 7, 8, 9, 10, 11, 12] }

/-! ## Theorems -/

/-- C1: for an initialized, open client and a non-nil handler, `StartTo`
registers the transaction with the agent before writing the encoded bytes to
the target address; when the write fails after a successful registration it
calls `Agent.Stop` on the message's transaction id before returning and
returns the original write error; when that stop itself fails it returns
`StopErr` with the write error as `Cause` and the stop error as `Err`. -/
theorem startTo_registers_then_writes_and_stops_on_write_failure
    (c : Client) (m : Message) (raddr : Addr) (d : Nat) (env : StartToEnv)
    (hInit : c.checkInit = none) (hOpen : c.closed = false) :
    (env.startResult = none → env.writeResult = none →
        c.startTo m raddr d true env
          = (none, [.agentStart m.transactionID d, .connWrite m.raw raddr])) ∧
    (∀ w, env.startResult = none → env.writeResult = some w →
        env.stopResult = none →
        c.startTo m raddr d true env
          = (some w,
             [.agentStart m.transactionID d, .connWrite m.raw raddr,
              .agentStop m.transactionID])) ∧
    (∀ w s, env.startResult = none → env.writeResult = some w →
        env.stopResult = some s →
        c.startTo m raddr d true env
          = (some (.stopFailure s w),
             [.agentStart m.transactionID d, .connWrite m.raw raddr,
              .agentStop m.transactionID])) ∧
    (∀ e, env.startResult = some e →
        c.startTo m raddr d true env = (some e, [.agentStart m.transactionID d])) := by
  refine ⟨fun h1 h2 => ?_, fun w h1 h2 h3 => ?_, fun w s h1 h2 h3 => ?_,
    fun e h1 => ?_⟩ <;>
    simp [Client.startTo, hInit, hOpen, h1, *]

/-- C1 witness: the failing-stop branch evaluated on concrete inputs. -/
theorem startTo_registers_then_writes_witness :
    witClient.startTo witMessage (some 9) 5 true
        ⟨none, some .closedPipe, some .unexpectedEOF⟩
      = (some (.stopFailure .unexpectedEOF .closedPipe),
         [.agentStart witMessage.transactionID 5,
          .connWrite witMessage.raw (some 9),
          .agentStop witMessage.transactionID]) :=
  (startTo_registers_then_writes_and_stops_on_write_failure witClient witMessage
      (some 9) 5 ⟨none, some .closedPipe, some .unexpectedEOF⟩
      (by decide) (by decide)).2.2.1 .closedPipe .unexpectedEOF rfl rfl rfl

/-- C2: the first `Close` on an initialized, open client sets the closed flag,
closes the agent and the endpoint, signals the background tasks and joins
them, and returns nil exactly when both sub-closes succeed and otherwise
`CloseErr` carrying both sub-errors; any subsequent `Close` returns
`ErrClientClosed` and does nothing. -/
theorem close_closes_both_then_rejects_second_call
    (c : Client) (aRes cRes aRes2 cRes2 : Option GoErr)
    (hInit : c.checkInit = none) (hOpen : c.closed = false) :
    (c.close aRes cRes).1.closed = true ∧
    (c.close aRes cRes).2.2 = [.agentClose, .connClose, .signalClose, .joinTasks] ∧
    (aRes = none → cRes = none → (c.close aRes cRes).2.1 = none) ∧
    (¬(aRes = none ∧ cRes = none) →
        (c.close aRes cRes).2.1
          = some (.closeFailure (.ofOption aRes) (.ofOption cRes))) ∧
    (c.close aRes cRes).1.close aRes2 cRes2
      = ((c.close aRes cRes).1, some .clientClosed, []) := by
  have hInit' : Client.checkInit { c with closed := true } = c.checkInit := rfl
  refine ⟨?_, ?_, fun h1 h2 => ?_, fun h => ?_, ?_⟩ <;>
    simp [Client.close, hInit, hOpen, hInit', *]

/-- C2 witness: a failing agent close on a concrete client, followed by a
second close. -/
theorem close_closes_both_witness :
    (witClient.close (some .unexpectedEOF) none).2.1
        = some (.closeFailure .unexpectedEOF .nilErr) ∧
    (witClient.close (some .unexpectedEOF) none).1.close none none
        = ((witClient.close (some .unexpectedEOF) none).1, some .clientClosed, []) :=
  ⟨(close_closes_both_then_rejects_second_call witClient (some .unexpectedEOF) none
      none none (by decide) (by decide)).2.2.2.1 (by simp),
   (close_closes_both_then_rejects_second_call witClient (some .unexpectedEOF) none
      none none (by decide) (by decide)).2.2.2.2⟩

/-- C7: `Indicate` is definitionally `StartTo` at the configured server
address with zero deadline and nil handler; on an initialized, open client it
registers nothing with the agent, writes the encoded bytes to the server
address, and returns the write error (or nil) unchanged. -/
theorem indicate_is_fire_and_forget
    (c : Client) (m : Message) (env : StartToEnv)
    (hInit : c.checkInit = none) (hOpen : c.closed = false) :
    c.indicate m env = c.startTo m c.serveraddr 0 false env ∧
    c.indicate m env = (env.writeResult, [.connWrite m.raw c.serveraddr]) := by
  constructor
  · rfl
  · simp [Client.indicate, Client.start, Client.startTo, hInit, hOpen]

/-- C7 witness: a concrete indication with a successful write and one with a
failing write. -/
theorem indicate_is_fire_and_forget_witness :
    witClient.indicate witMessage ⟨none, none, none⟩
        = (none, [.connWrite witMessage.raw (some 7)]) ∧
    witClient.indicate witMessage ⟨none, some .closedPipe, none⟩
        = (some .closedPipe, [.connWrite witMessage.raw (some 7)]) :=
  ⟨(indicate_is_fire_and_forget witClient witMessage ⟨none, none, none⟩
      (by decide) (by decide)).2,
   (indicate_is_fire_and_forget witClient witMessage ⟨none, some .closedPipe, none⟩
      (by decide) (by decide)).2⟩

/-- C10: on an initialized client whose closed flag is set, `StartTo` — and
with it `Start`, `Indicate` and `DoTo` — returns `ErrClientClosed` with an
empty effect trace: nothing is registered with the agent and nothing is
written to the endpoint. -/
theorem closed_client_rejects_requests
    (c : Client) (m : Message) (raddr : Addr) (d : Nat) (hasHandler : Bool)
    (env : StartToEnv) (hInit : c.checkInit = none) (hClosed : c.closed = true) :
    c.startTo m raddr d hasHandler env = (some .clientClosed, []) ∧
    c.start m d hasHandler env = (some .clientClosed, []) ∧
    c.indicate m env = (some .clientClosed, []) ∧
    c.doTo m raddr d env = (.failed .clientClosed, []) := by
  have h : ∀ raddr d hasHandler,
      c.startTo m raddr d hasHandler env = (some .clientClosed, []) := by
    intro raddr d hasHandler
    simp [Client.startTo, hInit, hClosed]
  exact ⟨h raddr d hasHandler, h c.serveraddr d hasHandler, h c.serveraddr 0 false,
    by simp [Client.doTo, hInit, h raddr d true]⟩

/-- `closedOrPanic` panics with `e` exactly when its argument is the non-nil
error `e` and `e` is not `ErrAgentClosed`. -/
theorem closedOrPanic_panics_iff (o : Option GoErr) (e : GoErr) :
    closedOrPanic o = some e ↔ o = some e ∧ e ≠ .agentClosed := by
  unfold closedOrPanic
  split
  next h =>
    constructor
    · intro hc; cases hc
    · rintro ⟨ho, hne⟩
      rcases h with h | h
      · rw [h] at ho; cases ho
      · rw [h] at ho
        exact absurd (Option.some_inj.mp ho).symm hne
  next h =>
    push_neg at h
    exact ⟨fun hc => ⟨hc, fun hne => h.2 (by rw [hc, hne])⟩, fun hp => hp.1⟩

/-- C8: on the close signal the collector iteration stops the ticker and exits
without calling the agent or panicking; on a tick at time `now` it calls
`Agent.Collect(now)` and feeds the result to `closedOrPanic`, panicking
exactly when `Collect` returned an error that is neither nil nor
`ErrAgentClosed`. -/
theorem collector_tick_collects_and_panics_iff
    (collectResult : Nat → Option GoErr) (now : Nat) (e : GoErr) :
    collectUntilClosedStep collectResult .closeSignal = (.exited, [.tickerStop]) ∧
    (collectUntilClosedStep collectResult (.tick now)).2 = [.agentCollect now] ∧
    ((collectUntilClosedStep collectResult (.tick now)).1 = .panicked e ↔
        collectResult now = some e ∧ e ≠ .agentClosed) ∧
    ((collectUntilClosedStep collectResult (.tick now)).1 = .continued ↔
        closedOrPanic (collectResult now) = none) := by
  refine ⟨rfl, ?_, ?_, ?_⟩
  · cases h : closedOrPanic (collectResult now) <;>
      simp [collectUntilClosedStep, h]
  · rw [← closedOrPanic_panics_iff]
    cases h : closedOrPanic (collectResult now) <;>
      simp [collectUntilClosedStep, h]
  · cases h : closedOrPanic (collectResult now) <;>
      simp [collectUntilClosedStep, h]

/-- C9: `NewClient` discards every error produced by an option closure — with
two `WithPacketConn` options it succeeds and keeps the first connection even
though the second closure returns `ErrConnection` — and `NewClient` itself can
only fail with `ErrNoConnection`, which happens exactly when no option bound a
connection. -/
theorem newClient_discards_option_errors
    (a b : Nat) (options : List ClientOption) :
    (newClient [withPacketConn a, withPacketConn b]
        = (some { newClientInit with conn := some a, agent := some defaultAgent },
           none) ∧
     (withPacketConn b { newClientInit with conn := some a }).2
        = some .connAlready) ∧
    (∀ e, (newClient options).2 = some e → e = .noConnection) ∧
    ((newClient options).2 = some .noConnection ↔
        (applyOptions options).conn = none) := by
  refine ⟨⟨?_, ?_⟩, ?_, ?_⟩
  · simp [newClient, applyOptions, withPacketConn, newClientInit]
  · simp [withPacketConn]
  · intro e he
    unfold newClient at he
    split at he
    · simp only at he
      exact (Option.some_inj.mp he).symm
    · split at he <;> cases he
  · unfold newClient
    split
    next h => simp [h]
    next h => split <;> simp [h]

/-- C9 witness: a connection-less option list makes `NewClient` fail with
`ErrNoConnection`, and the duplicate-connection list succeeds. -/
theorem newClient_discards_option_errors_witness :
    (newClient [withTimeoutRate 5]).2 = some .noConnection ∧
    newClient [withPacketConn 1, withPacketConn 2]
      = (some { newClientInit with conn := some 1, agent := some defaultAgent },
         none) :=
  ⟨(newClient_discards_option_errors 1 2 [withTimeoutRate 5]).2.2.mpr (by decide),
   (newClient_discards_option_errors 1 2 []).1.1⟩

/-- C10 witness: a closed concrete client rejects a concrete request with no
side effects. -/
theorem closed_client_rejects_requests_witness :
    witClosedClient.startTo witMessage (some 9) 5 true ⟨none, none, none⟩
        = (some .clientClosed, []) ∧
    witClosedClient.doTo witMessage (some 9) 5 ⟨none, none, none⟩
        = (.failed .clientClosed, []) :=
  ⟨(closed_client_rejects_requests witClosedClient witMessage (some 9) 5 true
      ⟨none, none, none⟩ (by decide) (by decide)).1,
   (closed_client_rejects_requests witClosedClient witMessage (some 9) 5 true
      ⟨none, none, none⟩ (by decide) (by decide)).2.2.2⟩

/-- A datagram that decodes is in particular a well-formed STUN message. -/
theorem isMessage_of_decode {b : List Nat} {m : Message}
    (h : decodeMessage b = some m) : IsMessage b = true := by
  simp only [decodeMessage] at h
  split at h
  next hc =>
    simp only [Bool.and_eq_true] at hc
    exact hc.1.1
  next => cases h

/-- C6: for a datagram handed to `Client.ReadFrom`, a well-formed STUN message
(one that decodes, which entails length ≥ 20, zero top bits of byte 0 and the
magic cookie) is given to `Agent.Process` — a process error is returned and
otherwise `ReadFrom` keeps reading — while non-STUN bytes or STUN-framed bytes
that fail to decode are returned to the caller with the raw byte count, the
source address and a nil error, without invoking the agent. -/
theorem readFrom_dispatches_only_decodable_stun
    (pr : Message → Option GoErr) (bytes : List Nat) (addr : Addr)
    (rest : List ReadEvent) :
    (∀ m, decodeMessage bytes = some m →
        (pr m = none →
            clientReadFrom pr (.packet bytes addr :: rest)
              = ((clientReadFrom pr rest).1,
                 .agentProcess m.transactionID :: (clientReadFrom pr rest).2.1,
                 (clientReadFrom pr rest).2.2)) ∧
        (∀ e, pr m = some e →
            clientReadFrom pr (.packet bytes addr :: rest)
              = (some ⟨bytes.length, addr, some e⟩,
                 [.agentProcess m.transactionID], rest))) ∧
    (IsMessage bytes = false →
        clientReadFrom pr (.packet bytes addr :: rest)
          = (some ⟨bytes.length, addr, none⟩, [], rest)) ∧
    (decodeMessage bytes = none →
        clientReadFrom pr (.packet bytes addr :: rest)
          = (some ⟨bytes.length, addr, none⟩, [], rest)) := by
  refine ⟨fun m hm => ⟨fun hpr => ?_, fun e hpr => ?_⟩, fun hmsg => ?_, fun hm => ?_⟩
  · rcases hrec : clientReadFrom pr rest with ⟨r, effs, rem⟩
    simp [clientReadFrom, isMessage_of_decode hm, hm, hpr, hrec]
  · simp [clientReadFrom, isMessage_of_decode hm, hm, hpr]
  · simp [clientReadFrom, hmsg]
  · cases hmsg : IsMessage bytes <;> simp [clientReadFrom, hmsg, hm]

/-- C6 witness: a non-STUN datagram is handed back raw with a nil error and no
agent call, and a decodable one whose processing fails with a concrete error
returns that error after one `agentProcess` call. -/
theorem readFrom_dispatches_only_decodable_stun_witness :
    clientReadFrom (fun _ => none) [.packet [1, 2, 3] (some 4)]
        = (some ⟨3, some 4, none⟩, [], []) ∧
    clientReadFrom (fun _ => some .unexpectedEOF) [.packet witMessage.raw (some 4)]
        = (some ⟨20, some 4, some .unexpectedEOF⟩,
           [.agentProcess witMessage.transactionID], []) :=
  ⟨(readFrom_dispatches_only_decodable_stun (fun _ => none) [1, 2, 3] (some 4)
      []).2.1 (by decide),
   (readFrom_dispatches_only_decodable_stun (fun _ => some .unexpectedEOF)
      witMessage.raw (some 4) []).1 ⟨witMessage.transactionID, witMessage.raw⟩
      (by decide) |>.2 .unexpectedEOF rfl⟩

/-- C4 counterexample: with the close signal not fired, an endpoint read that
fails with the endpoint-closed sentinel `io.EOF` does not make the read loop
exit — `ReadFrom` returns the error and the iteration continues. -/
theorem read_loop_continues_after_eof :
    readUntilClosedIteration false (fun _ => none) [.readErr .eof]
      = (.continued, [], []) := by decide

/-- C4 (amended): one iteration of `readUntilClosed` exits immediately when
the close signal has fired; otherwise it performs one `ReadFrom`, during which
decodable STUN datagrams are handed to `Agent.Process` and undecodable
datagrams are returned without touching the agent; the iteration exits on a
completed `ReadFrom` exactly when the returned error is `ErrAgentClosed` — an
endpoint read failure with any other error, the endpoint-closed sentinel
included, leaves the loop running. -/
theorem read_loop_exit_conditions
    (pr : Message → Option GoErr) (events : List ReadEvent) :
    readUntilClosedIteration true pr events = (.exited, [], events) ∧
    (∀ r effs rem, clientReadFrom pr events = (some r, effs, rem) →
        readUntilClosedIteration false pr events
          = ((if r.err = some .agentClosed then ReadLoopStep.exited
              else ReadLoopStep.continued), effs, rem)) ∧
    (∀ e rest, e ≠ .agentClosed →
        readUntilClosedIteration false pr (.readErr e :: rest)
          = (.continued, [], rest)) ∧
    (∀ bytes addr rest m, decodeMessage bytes = some m →
        (clientReadFrom pr (.packet bytes addr :: rest)).2.1.head?
          = some (.agentProcess m.transactionID)) ∧
    (∀ bytes addr rest, decodeMessage bytes = none →
        clientReadFrom pr (.packet bytes addr :: rest)
          = (some ⟨bytes.length, addr, none⟩, [], rest)) := by
  refine ⟨rfl, fun r effs rem hr => ?_, fun e rest he => ?_,
    fun bytes addr rest m hm => ?_, fun bytes addr rest hm => ?_⟩
  · simp [readUntilClosedIteration, hr]
  · simp [readUntilClosedIteration, clientReadFrom, he]
  · cases hpr : pr m with
    | none =>
      rcases hrec : clientReadFrom pr rest with ⟨r, effs, rem⟩
      simp [clientReadFrom, isMessage_of_decode hm, hm, hpr, hrec]
    | some e => simp [clientReadFrom, isMessage_of_decode hm, hm, hpr]
  · cases hmsg : IsMessage bytes <;> simp [clientReadFrom, hmsg, hm]

/-- C4 witness (for the amended claim): on concrete inputs, the close signal
makes the iteration exit, and a non-`ErrAgentClosed` read error keeps it
running. -/
theorem read_loop_exit_conditions_witness :
    readUntilClosedIteration true (fun _ => none) [.readErr .eof]
        = (.exited, [], [.readErr .eof]) ∧
    readUntilClosedIteration false (fun _ => none) [.readErr .closedPipe]
        = (.continued, [], []) :=
  ⟨(read_loop_exit_conditions (fun _ => none) [.readErr .eof]).1,
   (read_loop_exit_conditions (fun _ => none) []).2.2.1 .closedPipe []
      (by decide)⟩

/-- A concrete closed agent. -/
def witClosedAgent : AgentState := { transactions := [], closed := true }

/-- C5: `Agent.Process` on a closed agent returns `ErrAgentClosed` without
touching the registry or firing any handler, and the read loop treats that
error, propagated through `Client.ReadFrom`, as a clean exit: with the close
signal unfired, an iteration whose `ReadFrom` completed exits exactly when the
returned error is `ErrAgentClosed`. -/
theorem process_after_close_is_clean_exit
    (a : AgentState) (m : Message) (ha : a.closed = true)
    (pr : Message → Option GoErr) (events : List ReadEvent) (r : ReadReturn)
    (effs : List Effect) (rem : List ReadEvent)
    (hr : clientReadFrom pr events = (some r, effs, rem)) :
    a.process m = (a, some .agentClosed, []) ∧
    ((readUntilClosedIteration false pr events).1 = .exited ↔
        r.err = some .agentClosed) := by
  constructor
  · simp [AgentState.process, ha]
  · simp only [readUntilClosedIteration, Bool.false_eq_true, if_false, hr]
    split
    next h => simp [h]
    next h => simp [h]

/-- C5 witness: a decodable datagram processed by a closed agent makes the
concrete read-loop iteration exit cleanly. -/
theorem process_after_close_is_clean_exit_witness :
    witClosedAgent.process witMessage = (witClosedAgent, some .agentClosed, []) ∧
    ((readUntilClosedIteration false (fun _ => some .agentClosed)
        [.packet witMessage.raw none]).1 = .exited) :=
  ⟨(process_after_close_is_clean_exit witClosedAgent witMessage rfl
      (fun _ => some .agentClosed) [.packet witMessage.raw none]
      ⟨20, none, some .agentClosed⟩ [.agentProcess witMessage.transactionID] []
      (by decide)).1,
   (process_after_close_is_clean_exit witClosedAgent witMessage rfl
      (fun _ => some .agentClosed) [.packet witMessage.raw none]
      ⟨20, none, some .agentClosed⟩ [.agentProcess witMessage.transactionID] []
      (by decide)).2.mpr rfl⟩

/-- On a registry whose ids are pairwise distinct, two members with the same
id are the same registration. -/
theorem mem_id_inj :
    ∀ (l : List AgentTransaction), (l.map AgentTransaction.id).Nodup →
      ∀ t u, t ∈ l → u ∈ l → u.id = t.id → u = t := by
  intro l
  induction l with
  | nil => intro _ t u ht; cases ht
  | cons hd tl ih =>
    intro hnd t u ht hu hid
    rw [List.map_cons, List.nodup_cons] at hnd
    rcases List.mem_cons.mp ht with rfl | ht' <;>
      rcases List.mem_cons.mp hu with rfl | hu'
    · rfl
    · exact absurd (hid ▸ List.mem_map_of_mem AgentTransaction.id hu') hnd.1
    · exact absurd (hid ▸ List.mem_map_of_mem AgentTransaction.id ht') hnd.1
    · exact ih hnd.2 t u ht' hu' hid

/-- In a registry with pairwise distinct ids, an expired member is counted
exactly once by the expired-with-its-id predicate. -/
theorem countP_id_expired_eq_one (now : Nat) (t : AgentTransaction) :
    ∀ (l : List AgentTransaction), (l.map AgentTransaction.id).Nodup →
      t ∈ l → t.deadline ≤ now →
      l.countP (fun u => u.id == t.id && decide (u.deadline ≤ now)) = 1 := by
  intro l
  induction l with
  | nil => intro _ ht; cases ht
  | cons hd tl ih =>
    intro hnd ht hdl
    rw [List.map_cons, List.nodup_cons] at hnd
    rcases List.mem_cons.mp ht with rfl | ht'
    · rw [List.countP_cons_of_pos _ _ (by simp [hdl])]
      have hz : tl.countP (fun u => u.id == t.id && decide (u.deadline ≤ now)) = 0 := by
        rw [List.countP_eq_zero]
        intro u hu hpu
        simp only [Bool.and_eq_true, beq_iff_eq, decide_eq_true_eq] at hpu
        exact hnd.1 (hpu.1 ▸ List.mem_map_of_mem AgentTransaction.id hu)
      rw [hz]
    · rw [List.countP_cons_of_neg]
      · exact ih hnd.2 ht' hdl
      · have hne : ¬ hd.id = t.id := fun h =>
          hnd.1 (h ▸ List.mem_map_of_mem AgentTransaction.id ht')
        simp [hne]

/-- In a registry with pairwise distinct ids, an unexpired member is never
counted by the expired-with-its-id predicate. -/
theorem countP_id_expired_eq_zero (now : Nat) (t : AgentTransaction)
    (l : List AgentTransaction) (hnd : (l.map AgentTransaction.id).Nodup)
    (ht : t ∈ l) (hdl : ¬ t.deadline ≤ now) :
    l.countP (fun u => u.id == t.id && decide (u.deadline ≤ now)) = 0 := by
  rw [List.countP_eq_zero]
  intro u hu hpu
  simp only [Bool.and_eq_true, beq_iff_eq, decide_eq_true_eq] at hpu
  exact hdl ((mem_id_inj l hnd t u ht hu hpu.1) ▸ hpu.2)

/-- C3: on an open agent whose registry carries pairwise distinct transaction
ids, `Collect(now)` succeeds, its surviving registry is exactly the
registrations with deadline after `now`, every registration with deadline
≤ `now` is removed and its handler fires exactly once with
`TRANSACTION_TIMEOUT`, and every registration with a later deadline stays
registered with its handler unfired. -/
theorem agent_collect_fires_exactly_expired
    (a : AgentState) (now : Nat) (hOpen : a.closed = false)
    (hNodup : (a.transactions.map AgentTransaction.id).Nodup) :
    (a.collect now).2.1 = none ∧
    (a.collect now).1.transactions
      = a.transactions.filter (fun t => ¬ t.deadline ≤ now) ∧
    (∀ t ∈ a.transactions, t.deadline ≤ now →
        AgentEvent.mk t.id (some .transactionTimeOut) ∈ (a.collect now).2.2 ∧
        (a.collect now).2.2.countP (fun e => e.id == t.id) = 1 ∧
        t ∉ (a.collect now).1.transactions) ∧
    (∀ t ∈ a.transactions, ¬ t.deadline ≤ now →
        t ∈ (a.collect now).1.transactions ∧
        (a.collect now).2.2.countP (fun e => e.id == t.id) = 0) := by
  simp only [AgentState.collect, hOpen, Bool.false_eq_true, if_false]
  refine ⟨trivial, trivial, fun t ht hdl => ⟨?_, ?_, ?_⟩, fun t ht hdl => ⟨?_, ?_⟩⟩
  · simp only [List.mem_map, List.mem_filter]
    exact ⟨t, ⟨ht, by simp [hdl]⟩, rfl⟩
  · rw [List.countP_map, List.countP_filter]
    have := countP_id_expired_eq_one now t a.transactions hNodup ht hdl
    simpa using this
  · simp [List.mem_filter, hdl]
  · simp only [List.mem_filter, decide_eq_true_eq]
    exact ⟨ht, by omega⟩
  · rw [List.countP_map, List.countP_filter]
    have := countP_id_expired_eq_zero now t a.transactions hNodup ht hdl
    simpa using this

/-- C3 witness: an agent holding one expired and one pending registration,
collected at a concrete time. -/
theorem agent_collect_fires_exactly_expired_witness :
    (AgentState.collect ⟨[⟨[1], 10⟩, ⟨[2], 30⟩], false⟩ 20).2.1 = none ∧
    AgentEvent.mk [1] (some .transactionTimeOut)
      ∈ (AgentState.collect ⟨[⟨[1], 10⟩, ⟨[2], 30⟩], false⟩ 20).2.2 ∧
    AgentTransaction.mk [2] 30
      ∈ (AgentState.collect ⟨[⟨[1], 10⟩, ⟨[2], 30⟩], false⟩ 20).1.transactions :=
  ⟨(agent_collect_fires_exactly_expired ⟨[⟨[1], 10⟩, ⟨[2], 30⟩], false⟩ 20
      rfl (by decide)).1,
   ((agent_collect_fires_exactly_expired ⟨[⟨[1], 10⟩, ⟨[2], 30⟩], false⟩ 20
      rfl (by decide)).2.2.1 ⟨[1], 10⟩ (by decide) (by decide)).1,
   ((agent_collect_fires_exactly_expired ⟨[⟨[1], 10⟩, ⟨[2], 30⟩], false⟩ 20
      rfl (by decide)).2.2.2 ⟨[2], 30⟩ (by decide) (by decide)).1⟩

end Stun
